import Mathlib

/-!
# Verification of the synchronized-screensaver drift-correction engine

A shallow embedding, over exact rational arithmetic, of the wall-clock video
synchronization code of this repository:

* `src/src/lib/sync.ts` — the three-band hybrid controller (namespace `Sync`);
* `src/unnamed/part_001` — the hybrid variant that re-reads the duration on
  every tick and guards it (namespace `SyncV2`);
* `src/unnamed/part_000` — the wait-for-boundary (end-of-loop) variant
  (namespace `LoopSync`);
* `src/unnamed/part_004` / `part_003` — `discoverVideos`
  (namespace `Discover`).

JavaScript numbers are modelled as rationals; `Date.now() / 1000` becomes an
explicit `now : ℚ` argument.  A duration read from the media element is
modelled as `Option ℚ`, where `none` stands for the NaN report; all other
quantities in the verified paths are finite, so exact arithmetic is faithful.
-/

/-- JavaScript truncation toward zero, as used by the `%` operator. -/
def jsTrunc (q : ℚ) : ℤ := if 0 ≤ q then ⌊q⌋ else ⌈q⌉

/-- JavaScript `%` (truncated remainder) on finite operands.  The sources
only ever evaluate it with a nonnegative dividend (`Date.now() / 1000`) and a
nonzero divisor; for a zero divisor JavaScript yields NaN, which this finite
model does not represent, and no theorem below evaluates that case. -/
def jsMod (a b : ℚ) : ℚ := a - b * jsTrunc (a / b)

/-- JavaScript `Math.sign` on finite operands. -/
def jsSign (q : ℚ) : ℚ := if 0 < q then 1 else if q < 0 then -1 else 0

/-- `getTargetTime` (identical in all three sync variants):
`(Date.now() / 1000) % duration`. -/
def getTargetTime (now duration : ℚ) : ℚ := jsMod now duration

/-- The observable surface of the `<video>` element that the controllers
read and mutate.  `duration` is the element's live duration report; `none`
models a NaN report. -/
structure VideoState where
  currentTime : ℚ
  duration : Option ℚ
  playbackRate : ℚ
  paused : Bool
deriving DecidableEq

namespace Sync

/-- `DRIFT_IGNORE` from `sync.ts`. -/
def DRIFT_IGNORE : ℚ := 0.05

/-- `DRIFT_SEEK` from `sync.ts`. -/
def DRIFT_SEEK : ℚ := 0.3

/-- `RATE_MIN` from `sync.ts`. -/
def RATE_MIN : ℚ := 0.97

/-- `RATE_MAX` from `sync.ts`. -/
def RATE_MAX : ℚ := 1.03

/-- `RATE_RANGE = RATE_MAX - 1` from `sync.ts`. -/
def RATE_RANGE : ℚ := RATE_MAX - 1

/-- `computeDrift` from `sync.ts`: signed drift between the wall-clock target
and the actual position, wrapped across the loop boundary. -/
def computeDrift (now currentTime duration : ℚ) : ℚ :=
  let target := jsMod now duration
  let raw := target - currentTime
  if raw > duration * (0.5 : ℚ) then raw - duration
  else if raw < duration * (-0.5 : ℚ) then raw + duration
  else raw

/-- `correct` from `sync.ts`.  `dur` is the duration cached once at attach
time (`const dur = video.duration`); the element's live `duration` field is
not read by this function. -/
def correct (now dur ignoreT seekT : ℚ) (video : VideoState) : VideoState :=
  if video.paused then video
  else
    let drift := computeDrift now video.currentTime dur
    let absDrift := if drift > 0 then drift else -drift
    if absDrift < ignoreT then
      (if video.playbackRate ≠ 1 then { video with playbackRate := 1 } else video)
    else if absDrift ≥ seekT then
      { video with playbackRate := 1, currentTime := jsMod now dur }
    else
      let factor := absDrift / seekT
      let adjustment := factor * RATE_RANGE
      let newRate :=
        if drift > 0 then min (1 + adjustment) RATE_MAX
        else max (1 - adjustment) RATE_MIN
      let rateDelta := video.playbackRate - newRate
      if rateDelta > 0.001 ∨ rateDelta < -0.001 then
        { video with playbackRate := newRate }
      else video

/-- The controller's own state in `startSync`: the video element, the
`timer` handle (`timer !== null`), the visibility-change subscription, and —
as environment bookkeeping — how many `setInterval` loops are actually live
(an un-cleared interval stays live even if its handle is dropped). -/
structure Controller where
  video : VideoState
  timerActive : Bool
  liveIntervals : Nat
  visListener : Bool
deriving DecidableEq

/-- `startTimer` from `sync.ts`: a no-op if the handle is set, otherwise
`setInterval` (one more live interval, handle set). -/
def startTimer (c : Controller) : Controller :=
  if c.timerActive then c
  else { c with timerActive := true, liveIntervals := c.liveIntervals + 1 }

/-- `stopTimer` from `sync.ts`: if the handle is set, `clearInterval`
(one fewer live interval) and null the handle. -/
def stopTimer (c : Controller) : Controller :=
  if c.timerActive then
    { c with timerActive := false, liveIntervals := c.liveIntervals - 1 }
  else c

/-- `onVisibilityChange` from `sync.ts`.  Hidden: `stopTimer()` only.
Visible: hard re-seek to the wall-clock target, `play()` if paused, and
restart the correction timer. -/
def onVisibilityChange (hidden : Bool) (now dur : ℚ) (c : Controller) : Controller :=
  if hidden then stopTimer c
  else
    let v1 := { c.video with currentTime := jsMod now dur }
    let v2 := if v1.paused then { v1 with paused := false } else v1
    startTimer { c with video := v2 }

/-- One firing of the periodic interval: `correct` runs iff the controller's
interval is live. -/
def tick (now dur ignoreT seekT : ℚ) (c : Controller) : Controller :=
  if c.timerActive then { c with video := correct now dur ignoreT seekT c.video }
  else c

/-- `cleanup` from `sync.ts`: `stopTimer()`, detach the visibility
subscription (removing an absent listener is a no-op), and reset the
playback rate to nominal if it was altered. -/
def cleanup (c : Controller) : Controller :=
  let c1 := stopTimer c
  let c2 := { c1 with visListener := false }
  if c2.video.playbackRate ≠ 1 then
    { c2 with video := { c2.video with playbackRate := 1 } }
  else c2

/-- The events that touch the timer lifecycle: explicit `startTimer` /
`stopTimer` calls, the two visibility transitions, and interval firings. -/
inductive TimerEv where
  | start
  | stop
  | hide
  | visible
  | fire
deriving DecidableEq

/-- Dispatch one timer-lifecycle event. -/
def step (now dur ignoreT seekT : ℚ) (c : Controller) : TimerEv → Controller
  | .start => startTimer c
  | .stop => stopTimer c
  | .hide => onVisibilityChange true now dur c
  | .visible => onVisibilityChange false now dur c
  | .fire => tick now dur ignoreT seekT c

/-- Run a sequence of timer-lifecycle events. -/
def run (now dur ignoreT seekT : ℚ) (c : Controller) : List TimerEv → Controller
  | [] => c
  | e :: evs => run now dur ignoreT seekT (step now dur ignoreT seekT c e) evs

/-- The handle owns exactly the live intervals: one when set, none when
null. -/
def timerInv (c : Controller) : Prop :=
  c.liveIntervals = if c.timerActive then 1 else 0

end Sync

namespace SyncV2

/-- `RATE_MIN` from `part_001`. -/
def RATE_MIN : ℚ := 0.97

/-- `RATE_MAX` from `part_001`. -/
def RATE_MAX : ℚ := 1.03

/-- `computeDrift` from `part_001` (the `Math.abs` / `Math.sign`
formulation of the wrap). -/
def computeDrift (now currentTime duration : ℚ) : ℚ :=
  let raw := getTargetTime now duration - currentTime
  if |raw| > duration / 2 then raw - jsSign raw * duration
  else raw

/-- `correct` from `part_001`.  It re-reads `video.duration` on every tick
and opens with the guard
`if (!video.duration || isNaN(video.duration) || video.paused) return;`
(NaN is itself falsy, so the checks overlap; the result is: return when the
duration is NaN, zero, or playback is paused). -/
def correct (now ignoreT seekT : ℚ) (video : VideoState) : VideoState :=
  match video.duration with
  | none => video
  | some d =>
    if d = 0 ∨ video.paused then video
    else
      let drift := computeDrift now video.currentTime d
      let absDrift := |drift|
      if absDrift < ignoreT then
        (if video.playbackRate ≠ 1 then { video with playbackRate := 1 } else video)
      else if absDrift ≥ seekT then
        { video with playbackRate := 1, currentTime := getTargetTime now d }
      else
        let factor := absDrift / seekT
        let adjustment := factor * (RATE_MAX - 1)
        let newRate :=
          if drift > 0 then min (1 + adjustment) RATE_MAX
          else max (1 - adjustment) RATE_MIN
        if |video.playbackRate - newRate| > 0.001 then
          { video with playbackRate := newRate }
        else video

end SyncV2

namespace LoopSync

/-- The state of the `part_000` controller: the element's position and
pause flag, the pending `setTimeout` resumption (with its wait, in ms), and
the cooperative `stopped` flag. -/
structure LoopState where
  currentTime : ℚ
  paused : Bool
  pendingTimerMs : Option ℚ
  stopped : Bool
deriving DecidableEq

/-- The wait computed inside `scheduleNextLoop` from `part_000`:
`elapsed = nowSec % dur`, `remaining = dur - elapsed`,
`waitMs = elapsed <= remaining ? 0 : remaining * 1000`. -/
def waitMs (now dur : ℚ) : ℚ :=
  let elapsed := jsMod now dur
  let remaining := dur - elapsed
  if elapsed ≤ remaining then 0 else remaining * 1000

/-- `scheduleNextLoop` from `part_000` (runs on the `ended` event): seek to
frame 0, then either `play()` at once (wait below 16 ms) or schedule a
`setTimeout` resumption after `waitMs`. -/
def scheduleNextLoop (now dur : ℚ) (st : LoopState) : LoopState :=
  if st.stopped then st
  else
    let st1 := { st with currentTime := 0 }
    let w := waitMs now dur
    if w < 16 then { st1 with paused := false }
    else { st1 with pendingTimerMs := some w }

/-- `onVisibilityChange` from `part_000`.  Hidden: clear any pending
resumption timer and pause.  Visible: hard re-seek to the wall-clock target
and `play()`. -/
def onVisibilityChange (hidden : Bool) (now dur : ℚ) (st : LoopState) : LoopState :=
  if hidden then { st with pendingTimerMs := none, paused := true }
  else { st with currentTime := getTargetTime now dur, paused := false }

/-- The scheduled resumption callback from `part_000`: if a timer is
pending and the controller is not stopped, drop the handle and `play()`. -/
def timerFire (st : LoopState) : LoopState :=
  match st.pendingTimerMs with
  | none => st
  | some _ => if st.stopped then st else { st with pendingTimerMs := none, paused := false }

end LoopSync

/-- Lexicographic (code-unit) comparison of character lists, the order used
by JavaScript's default `Array.prototype.sort` on strings. -/
def charListLe : List Char → List Char → Bool
  | [], _ => true
  | _ :: _, [] => false
  | a :: as, b :: bs =>
    if a < b then true else if b < a then false else charListLe as bs

/-- String order backing the model of `.sort()`. -/
def strLe (a b : String) : Prop := charListLe a.data b.data = true

instance : DecidableRel strLe := fun a b =>
  inferInstanceAs (Decidable (charListLe a.data b.data = true))

namespace Discover

/-- One entry of an nginx `autoindex` JSON listing. -/
structure DirEntry where
  name : String
  type : String
deriving DecidableEq

/-- The server's answer to `fetch(dir)`, as `discoverVideos` observes it:
a network/parse failure (anything that lands in the `catch`), a parsed JSON
listing, or an HTML page whose `href="…"` attribute values are `hrefs`. -/
inductive ServerResponse where
  | failure
  | json (entries : List DirEntry)
  | html (hrefs : List String)
deriving DecidableEq

/-- Case folding for the `i` regex flag. -/
def lowerChar (c : Char) : Char := c.toLower

/-- The characters `.mp4`. -/
def mp4Suffix : List Char := ['.', 'm', 'p', '4']

/-- The test `/\.mp4$/i.test(s)`: `s` ends with `.mp4` up to case. -/
def testMp4 (s : String) : Bool := decide (mp4Suffix <:+ s.data.map lowerChar)

/-- Whether one `href` attribute value is kept by the HTML-branch regex
`/href="([^"]+\.mp4)"/gi`: a nonempty quote-free span ending in `.mp4`
(case-insensitively). -/
def hrefMatch (h : String) : Bool :=
  !h.data.isEmpty && !h.data.contains '"' && testMp4 h

/-- `name.startsWith("/")`. -/
def startsWithSlash (s : String) : Bool :=
  match s.data with
  | '/' :: _ => true
  | _ => false

/-- JavaScript's default `Array.prototype.sort` on strings: ascending
lexicographic (code-unit) order. -/
def sortJS (l : List String) : List String := List.insertionSort strLe l

/-- `discoverVideos` from `part_004` (identical in `part_003`): on a JSON
listing keep the `.mp4` files prefixed by `dir` and sort; on an HTML page
keep the matching `href` values (absolute ones kept as-is, others prefixed
by `dir`) and sort; on any thrown failure return `[]`. -/
def discoverVideos (dir : String) : ServerResponse → List String
  | .failure => []
  | .json entries =>
    sortJS ((entries.filter (fun e => e.type == "file" && testMp4 e.name)).map
      (fun e => dir ++ e.name))
  | .html hrefs =>
    sortJS ((hrefs.filter hrefMatch).map
      (fun h => if startsWithSlash h then h else dir ++ h))

end Discover

/-! ## Arithmetic facts about the wall-clock mapping -/

theorem jsTrunc_eq_floor {q : ℚ} (h : 0 ≤ q) : jsTrunc q = ⌊q⌋ := if_pos h

theorem jsMod_eq_floor {a b : ℚ} (ha : 0 ≤ a) (hb : 0 < b) :
    jsMod a b = a - b * ⌊a / b⌋ := by
  unfold jsMod
  rw [jsTrunc_eq_floor (div_nonneg ha hb.le)]

theorem jsMod_nonneg {a b : ℚ} (ha : 0 ≤ a) (hb : 0 < b) : 0 ≤ jsMod a b := by
  rw [jsMod_eq_floor ha hb]
  have h1 : (⌊a / b⌋ : ℚ) ≤ a / b := Int.floor_le _
  have h2 : b * (⌊a / b⌋ : ℚ) ≤ b * (a / b) := by
    exact mul_le_mul_of_nonneg_left h1 hb.le
  have h3 : b * (a / b) = a := by
    field_simp
  linarith

theorem jsMod_lt {a b : ℚ} (ha : 0 ≤ a) (hb : 0 < b) : jsMod a b < b := by
  rw [jsMod_eq_floor ha hb]
  have h1 : a / b < (⌊a / b⌋ : ℚ) + 1 := Int.lt_floor_add_one _
  have h2 : a < ((⌊a / b⌋ : ℚ) + 1) * b := by
    exact (div_lt_iff₀ hb).mp h1
  linarith [h2]

theorem getTargetTime_mem {now dur : ℚ} (hnow : 0 ≤ now) (hdur : 0 < dur) :
    0 ≤ getTargetTime now dur ∧ getTargetTime now dur < dur :=
  ⟨jsMod_nonneg hnow hdur, jsMod_lt hnow hdur⟩

theorem ite_pos_neg_eq_abs (q : ℚ) : (if q > 0 then q else -q) = |q| := by
  rcases le_or_lt q 0 with h | h
  · rw [if_neg (not_lt.mpr h), abs_of_nonpos h]
  · rw [if_pos h, abs_of_pos h]

/-! ## Claim C1 -/

/-- C1: for every wall-clock instant (`Date.now()` is nonnegative), every
positive duration and every actual position within the element's range
`[0, duration]`, the drift returned by `computeDrift` satisfies
`|drift| ≤ duration / 2`, and `actual + drift` is congruent to the
wall-clock target modulo the duration. -/
theorem computeDrift_abs_le_half_and_congruent
    (now actual dur : ℚ) (hnow : 0 ≤ now) (hdur : 0 < dur)
    (ha0 : 0 ≤ actual) (ha1 : actual ≤ dur) :
    |Sync.computeDrift now actual dur| ≤ dur / 2 ∧
      ∃ k : ℤ, actual + Sync.computeDrift now actual dur - getTargetTime now dur
        = k * dur := by
  have ht0 : 0 ≤ jsMod now dur := jsMod_nonneg hnow hdur
  have ht1 : jsMod now dur < dur := jsMod_lt hnow hdur
  have h05 : dur * (0.5 : ℚ) = dur / 2 := by ring
  have h05n : dur * (-0.5 : ℚ) = -(dur / 2) := by ring
  unfold Sync.computeDrift getTargetTime
  set t := jsMod now dur with hteq
  simp only []
  split_ifs with h1 h2
  · rw [h05] at h1
    constructor
    · rw [abs_le]; constructor <;> linarith
    · exact ⟨-1, by push_cast; ring⟩
  · rw [h05n] at h2
    constructor
    · rw [abs_le]; constructor <;> linarith
    · exact ⟨1, by push_cast; ring⟩
  · rw [h05] at h1; rw [h05n] at h2
    push_neg at h1 h2
    constructor
    · rw [abs_le]; constructor <;> linarith
    · exact ⟨0, by push_cast; ring⟩

/-- Witness for C1 at the specification's own end-to-end scenario:
duration 8 s, epoch 100.5 s, actual position 4 s (target 4.5, drift 0.5). -/
theorem computeDrift_abs_le_half_and_congruent_witness :
    (0 : ℚ) ≤ 100.5 ∧ (0 : ℚ) < 8 ∧ (0 : ℚ) ≤ 4 ∧ (4 : ℚ) ≤ 8 ∧
      (|Sync.computeDrift 100.5 4 8| ≤ 8 / 2 ∧
        ∃ k : ℤ, 4 + Sync.computeDrift 100.5 4 8 - getTargetTime 100.5 8 = k * 8) :=
  ⟨by norm_num, by norm_num, by norm_num, by norm_num,
    computeDrift_abs_le_half_and_congruent 100.5 4 8 (by norm_num) (by norm_num)
      (by norm_num) (by norm_num)⟩

/-! ## Claim C2 -/

/-- C2 counterexample: with the device clock at epoch 100 s and a 10-second
video, an actual position of 5 s gives raw drift `0 - 5 = -5 = -duration/2`.
The wrap tests are strict, so nothing is wrapped and `computeDrift` returns
exactly `-duration/2` — the claimed half-open interval `(-dur/2, dur/2]`
("a wrapped result of exactly `-duration/2` is never returned") is wrong on
its boundary. -/
theorem computeDrift_returns_neg_half_duration :
    Sync.computeDrift 100 5 10 = -(10 / 2) := by
  norm_num [Sync.computeDrift, jsMod, jsTrunc]

/-- C2 amended: `computeDrift` takes the raw difference `target - actual`
and adds (resp. subtracts) one duration exactly when the raw difference is
strictly below `-duration/2` (resp. strictly above `duration/2`); under the
element's range assumptions the result lies in the closed interval
`[-duration/2, duration/2]`, and `-duration/2` itself is returned when the
raw difference equals `-duration/2`. -/
theorem computeDrift_wrap_closed_interval
    (now actual dur : ℚ) (hnow : 0 ≤ now) (hdur : 0 < dur)
    (ha0 : 0 ≤ actual) (ha1 : actual ≤ dur) :
    (|getTargetTime now dur - actual| ≤ dur / 2 →
        Sync.computeDrift now actual dur = getTargetTime now dur - actual) ∧
    (dur / 2 < getTargetTime now dur - actual →
        Sync.computeDrift now actual dur = getTargetTime now dur - actual - dur) ∧
    (getTargetTime now dur - actual < -(dur / 2) →
        Sync.computeDrift now actual dur = getTargetTime now dur - actual + dur) ∧
    -(dur / 2) ≤ Sync.computeDrift now actual dur ∧
    Sync.computeDrift now actual dur ≤ dur / 2 := by
  have ht0 : 0 ≤ jsMod now dur := jsMod_nonneg hnow hdur
  have ht1 : jsMod now dur < dur := jsMod_lt hnow hdur
  have h05 : dur * (0.5 : ℚ) = dur / 2 := by ring
  have h05n : dur * (-0.5 : ℚ) = -(dur / 2) := by ring
  unfold Sync.computeDrift getTargetTime
  set t := jsMod now dur with hteq
  simp only []
  split_ifs with h1 h2
  · rw [h05] at h1
    refine ⟨fun hc => absurd h1 ?_, fun _ => rfl, fun hc => absurd h1 ?_, ?_, ?_⟩
    · rw [abs_le] at hc; push_neg; linarith
    · push_neg; linarith
    · linarith
    · linarith
  · rw [h05n] at h2
    refine ⟨fun hc => absurd h2 ?_, fun hc => absurd h2 ?_, fun _ => rfl, ?_, ?_⟩
    · rw [abs_le] at hc; push_neg; linarith
    · push_neg; linarith
    · linarith
    · linarith
  · rw [h05] at h1; rw [h05n] at h2
    push_neg at h1 h2
    refine ⟨fun _ => rfl, fun hc => ?_, fun hc => ?_, by linarith, by linarith⟩
    · linarith
    · linarith

/-- Witness for C2's amended statement at epoch 100 s, duration 10 s,
actual position 5 s: the raw difference is exactly `-duration/2` and is
returned unwrapped. -/
theorem computeDrift_wrap_closed_interval_witness :
    (0 : ℚ) ≤ 100 ∧ (0 : ℚ) < 10 ∧ (0 : ℚ) ≤ 5 ∧ (5 : ℚ) ≤ 10 ∧
      (|getTargetTime 100 10 - 5| ≤ 10 / 2 →
        Sync.computeDrift 100 5 10 = getTargetTime 100 10 - 5) ∧
      -(10 / 2) ≤ Sync.computeDrift 100 5 10 ∧
      Sync.computeDrift 100 5 10 ≤ 10 / 2 := by
  refine ⟨by norm_num, by norm_num, by norm_num, by norm_num, ?_, ?_, ?_⟩
  · exact (computeDrift_wrap_closed_interval 100 5 10 (by norm_num) (by norm_num)
      (by norm_num) (by norm_num)).1
  · exact (computeDrift_wrap_closed_interval 100 5 10 (by norm_num) (by norm_num)
      (by norm_num) (by norm_num)).2.2.2.1
  · exact (computeDrift_wrap_closed_interval 100 5 10 (by norm_num) (by norm_num)
      (by norm_num) (by norm_num)).2.2.2.2

/-! ## Claim C3 -/

/-- C3: on a steady-state tick with playback not paused, whenever the drift
magnitude is at least the hard/seek threshold — in particular when it equals
it exactly (the `>=` comparison makes the hard side a closed boundary) —
`correct` resets the playback rate to nominal and hard-seeks the position to
the current wall-clock target, leaving every other field unchanged (so no
gradual nudge happens).  `ignoreT ≤ seekT` is the configuration's band
ordering (defaults 0.05 ≤ 0.3). -/
theorem correct_hard_seek_at_threshold
    (now dur ignoreT seekT : ℚ) (v : VideoState)
    (hp : v.paused = false) (hIS : ignoreT ≤ seekT)
    (hd : seekT ≤ |Sync.computeDrift now v.currentTime dur|) :
    Sync.correct now dur ignoreT seekT v =
      { v with playbackRate := 1, currentTime := jsMod now dur } := by
  unfold Sync.correct
  rw [hp]
  simp only [Bool.false_eq_true, if_false, ite_pos_neg_eq_abs]
  rw [if_neg (not_lt.mpr (le_trans hIS hd)), if_pos hd]

/-- Witness for C3: epoch 100 s, duration 10 s, actual position 5 s gives
drift -5 with magnitude 5 ≥ 0.3, so the tick hard-seeks to target 0 and
resets the rate from 1.01 to 1. -/
theorem correct_hard_seek_at_threshold_witness :
    ((⟨5, some 10, 1.01, false⟩ : VideoState).paused = false) ∧
      Sync.DRIFT_IGNORE ≤ Sync.DRIFT_SEEK ∧
      Sync.DRIFT_SEEK ≤ |Sync.computeDrift 100 (5 : ℚ) 10| ∧
      Sync.correct 100 10 Sync.DRIFT_IGNORE Sync.DRIFT_SEEK ⟨5, some 10, 1.01, false⟩ =
        { (⟨5, some 10, 1.01, false⟩ : VideoState) with
            playbackRate := 1, currentTime := jsMod 100 10 } := by
  have h1 : ((⟨5, some 10, 1.01, false⟩ : VideoState)).paused = false := rfl
  have h2 : Sync.DRIFT_IGNORE ≤ Sync.DRIFT_SEEK := by
    norm_num [Sync.DRIFT_IGNORE, Sync.DRIFT_SEEK]
  have h3 : Sync.DRIFT_SEEK ≤ |Sync.computeDrift 100 (5 : ℚ) 10| := by
    norm_num [Sync.DRIFT_SEEK, Sync.computeDrift, jsMod, jsTrunc, abs]
  exact ⟨h1, h2, h3, correct_hard_seek_at_threshold 100 10 _ _ _ h1 h2 h3⟩

/-! ## Claim C4 -/

/-- C4: on a steady-state tick with `ignore ≤ |drift| < hard` (and a
positive ignore threshold, as configured), the new rate is the proportional
nudge `1 ± (|drift|/seekT)·RATE_RANGE` clamped to `[RATE_MIN, RATE_MAX]`; it
is strictly above nominal when behind target and strictly below when ahead;
and `correct` writes it only when it differs from the current rate by more
than the 0.001 deadband, leaving the state untouched otherwise. -/
theorem correct_gradual_band_rate
    (now dur ignoreT seekT d r : ℚ) (v : VideoState)
    (hp : v.paused = false) (hiT : 0 < ignoreT)
    (hd : d = Sync.computeDrift now v.currentTime dur)
    (h1 : ignoreT ≤ |d|) (h2 : |d| < seekT)
    (hr : r = if d > 0 then min (1 + |d| / seekT * Sync.RATE_RANGE) Sync.RATE_MAX
          else max (1 - |d| / seekT * Sync.RATE_RANGE) Sync.RATE_MIN) :
    ((0.001 < |v.playbackRate - r| →
        Sync.correct now dur ignoreT seekT v = { v with playbackRate := r }) ∧
      (|v.playbackRate - r| ≤ 0.001 →
        Sync.correct now dur ignoreT seekT v = v)) ∧
    (0 < d → 1 < r) ∧ (d < 0 → r < 1) ∧
    Sync.RATE_MIN ≤ r ∧ r ≤ Sync.RATE_MAX := by
  have hsT : 0 < seekT := lt_of_le_of_lt (le_trans hiT.le h1) h2
  have hd0 : 0 < |d| := lt_of_lt_of_le hiT h1
  have hRR : (0 : ℚ) < Sync.RATE_RANGE := by
    norm_num [Sync.RATE_RANGE, Sync.RATE_MAX]
  have hadj : 0 < |d| / seekT * Sync.RATE_RANGE := mul_pos (div_pos hd0 hsT) hRR
  have hMINlt : Sync.RATE_MIN < 1 := by norm_num [Sync.RATE_MIN]
  have hMAXgt : (1 : ℚ) < Sync.RATE_MAX := by norm_num [Sync.RATE_MAX]
  have hMM : Sync.RATE_MIN ≤ Sync.RATE_MAX := le_of_lt (hMINlt.trans hMAXgt)
  have hcorrect : Sync.correct now dur ignoreT seekT v =
      (if v.playbackRate - r > 0.001 ∨ v.playbackRate - r < -0.001 then
        { v with playbackRate := r } else v) := by
    unfold Sync.correct
    rw [hp]
    simp only [Bool.false_eq_true, if_false, ite_pos_neg_eq_abs, ← hd]
    rw [if_neg (not_lt.mpr h1), if_neg (not_le.mpr h2), ← hr]
  refine ⟨⟨?_, ?_⟩, ?_, ?_, ?_, ?_⟩
  · intro h
    rw [hcorrect, if_pos ?_]
    rcases lt_abs.mp h with h' | h'
    · exact Or.inl h'
    · exact Or.inr (by linarith)
  · intro h
    rw [abs_le] at h
    rw [hcorrect, if_neg ?_]
    push_neg
    exact ⟨h.2, by linarith [h.1]⟩
  · intro hpos
    rw [hr, if_pos hpos]
    exact lt_min (by linarith) hMAXgt
  · intro hneg
    rw [hr, if_neg (not_lt.mpr hneg.le)]
    exact max_lt (by linarith) hMINlt
  · rw [hr]
    split_ifs
    · exact le_min (by linarith) hMM
    · exact le_max_right _ _
  · rw [hr]
    split_ifs
    · exact min_le_right _ _
    · exact max_le (by linarith) hMM

/-- Witness for C4: epoch 100 s, duration 10 s, actual position 9.9 s gives
drift 0.1 (behind target across the loop boundary); the nudge rate is 1.01,
which differs from the current rate 1 by more than 0.001, so it is written. -/
theorem correct_gradual_band_rate_witness :
    ((⟨9.9, some 10, 1, false⟩ : VideoState).paused = false) ∧
      (0 : ℚ) < Sync.DRIFT_IGNORE ∧
      (0.1 : ℚ) = Sync.computeDrift 100 (⟨9.9, some 10, 1, false⟩ : VideoState).currentTime 10 ∧
      Sync.DRIFT_IGNORE ≤ |(0.1 : ℚ)| ∧ |(0.1 : ℚ)| < Sync.DRIFT_SEEK ∧
      (0.001 < |(⟨9.9, some 10, 1, false⟩ : VideoState).playbackRate - 1.01| →
        Sync.correct 100 10 Sync.DRIFT_IGNORE Sync.DRIFT_SEEK ⟨9.9, some 10, 1, false⟩ =
          { (⟨9.9, some 10, 1, false⟩ : VideoState) with playbackRate := 1.01 }) ∧
      (0 : ℚ) < 0.1 ∧ (1 : ℚ) < 1.01 := by
  have hp : ((⟨9.9, some 10, 1, false⟩ : VideoState)).paused = false := rfl
  have hiT : (0 : ℚ) < Sync.DRIFT_IGNORE := by norm_num [Sync.DRIFT_IGNORE]
  have hd : (0.1 : ℚ) =
      Sync.computeDrift 100 (⟨9.9, some 10, 1, false⟩ : VideoState).currentTime 10 := by
    norm_num [Sync.computeDrift, jsMod, jsTrunc]
  have h1 : Sync.DRIFT_IGNORE ≤ |(0.1 : ℚ)| := by norm_num [Sync.DRIFT_IGNORE, abs]
  have h2 : |(0.1 : ℚ)| < Sync.DRIFT_SEEK := by norm_num [Sync.DRIFT_SEEK, abs]
  have hr : (1.01 : ℚ) =
      if (0.1 : ℚ) > 0 then min (1 + |(0.1 : ℚ)| / Sync.DRIFT_SEEK * Sync.RATE_RANGE) Sync.RATE_MAX
      else max (1 - |(0.1 : ℚ)| / Sync.DRIFT_SEEK * Sync.RATE_RANGE) Sync.RATE_MIN := by
    norm_num [Sync.DRIFT_SEEK, Sync.RATE_RANGE, Sync.RATE_MAX, Sync.RATE_MIN, abs, min_def]
  refine ⟨hp, hiT, hd, h1, h2,
    (correct_gradual_band_rate 100 10 Sync.DRIFT_IGNORE Sync.DRIFT_SEEK 0.1 1.01
      ⟨9.9, some 10, 1, false⟩ hp hiT hd h1 h2 hr).1.1, by norm_num, by norm_num⟩

/-! ## Claim C5 -/

/-- C5 counterexample: the `sync.ts` correction cycle does not guard the
duration.  With the attach-time cached duration 10 s, a tick at epoch 200 s
on a playing element whose duration is transiently reported as NaN
(`duration = none`) is not skipped: `correct` computes the wall-clock
modulo with the cached value and hard-seeks the position from 5 to 0,
mutating the element although the claim says the cycle must do nothing. -/
theorem correct_no_duration_guard_mutates :
    (⟨5, none, 1, false⟩ : VideoState).duration = none ∧
      (Sync.correct 200 10 Sync.DRIFT_IGNORE Sync.DRIFT_SEEK ⟨5, none, 1, false⟩).currentTime = 0 ∧
      (⟨5, none, 1, false⟩ : VideoState).currentTime = 5 := by
  refine ⟨rfl, ?_, rfl⟩
  norm_num [Sync.correct, Sync.computeDrift, Sync.DRIFT_IGNORE, Sync.DRIFT_SEEK,
    jsMod, jsTrunc]

/-- C5 amended: only the `part_001` correction cycle guards the duration —
it re-reads `video.duration` every tick and returns with the state
untouched when the duration is NaN or zero; the `sync.ts` cycle checks only
the paused flag (and is a no-op exactly when paused), using the duration it
cached at attach time regardless of what the element currently reports. -/
theorem correctV2_guard_skips_invalid_duration
    (now ignoreT seekT dur : ℚ) (v w : VideoState)
    (hv : v.duration = none ∨ v.duration = some 0)
    (hw : w.paused = true) :
    SyncV2.correct now ignoreT seekT v = v ∧
      Sync.correct now dur ignoreT seekT w = w := by
  constructor
  · rcases hv with h | h
    · unfold SyncV2.correct
      rw [h]
    · unfold SyncV2.correct
      rw [h]
      simp
  · unfold Sync.correct
    rw [hw]
    simp

/-- Witness for C5's amended statement: a tick with duration reported NaN
leaves the `part_001` state untouched, and a paused tick leaves the
`sync.ts` state untouched. -/
theorem correctV2_guard_skips_invalid_duration_witness :
    ((⟨1, none, 1.02, false⟩ : VideoState).duration = none ∨
        (⟨1, none, 1.02, false⟩ : VideoState).duration = some 0) ∧
      ((⟨3, some 10, 1, true⟩ : VideoState).paused = true) ∧
      SyncV2.correct 7 Sync.DRIFT_IGNORE Sync.DRIFT_SEEK ⟨1, none, 1.02, false⟩ =
        ⟨1, none, 1.02, false⟩ ∧
      Sync.correct 7 10 Sync.DRIFT_IGNORE Sync.DRIFT_SEEK ⟨3, some 10, 1, true⟩ =
        ⟨3, some 10, 1, true⟩ := by
  have h1 : ((⟨1, none, 1.02, false⟩ : VideoState)).duration = none ∨
      ((⟨1, none, 1.02, false⟩ : VideoState)).duration = some 0 := Or.inl rfl
  have h2 : ((⟨3, some 10, 1, true⟩ : VideoState)).paused = true := rfl
  have h := correctV2_guard_skips_invalid_duration 7 Sync.DRIFT_IGNORE Sync.DRIFT_SEEK 10
    ⟨1, none, 1.02, false⟩ ⟨3, some 10, 1, true⟩ h1 h2
  exact ⟨h1, h2, h.1, h.2⟩

/-! ## Claim C6 -/

/-- C6: evaluation of the became-hidden transitions at a concrete playing
state.  The `part_000` controller does what the claim says: it clears the
pending resumption timer and pauses.  The `sync.ts` controller cancels its
correction interval — and afterwards a timer firing mutates nothing — but
it does **not** pause the media: `video.paused` is still `false` after the
hidden transition, although `sync.ts`'s own header comment says the engine
"pauses automatically when the tab is hidden". -/
theorem hidden_transition_stops_timer_but_not_playback :
    (LoopSync.onVisibilityChange true 100 10 ⟨5, false, some 500, false⟩).paused = true ∧
      (LoopSync.onVisibilityChange true 100 10 ⟨5, false, some 500, false⟩).pendingTimerMs = none ∧
      (Sync.onVisibilityChange true 100 10 ⟨⟨5, some 10, 1.02, false⟩, true, 1, true⟩).timerActive
        = false ∧
      (Sync.tick 100 10 Sync.DRIFT_IGNORE Sync.DRIFT_SEEK
          (Sync.onVisibilityChange true 100 10 ⟨⟨5, some 10, 1.02, false⟩, true, 1, true⟩)) =
        Sync.onVisibilityChange true 100 10 ⟨⟨5, some 10, 1.02, false⟩, true, 1, true⟩ ∧
      (Sync.onVisibilityChange true 100 10 ⟨⟨5, some 10, 1.02, false⟩, true, 1, true⟩).video.paused
        = false :=
  ⟨rfl, rfl, rfl, rfl, rfl⟩

/-! ## Claim C7 -/

/-- C7 counterexample: at epoch 54 s with a 10-second video, 4 s have
elapsed since the last loop boundary and 6 s remain until the next one.
The claim says the controller waits `duration - elapsed` (6000 ms), with a
zero wait only when the boundary was passed within one tick — but 4 s is
far beyond any tick (the correction interval is 2 s) and `scheduleNextLoop`
still waits 0 ms: it resumes playback immediately with no pending timer,
because the code zeroes the wait whenever `elapsed ≤ remaining`. -/
theorem scheduleNextLoop_zero_wait_far_from_boundary :
    LoopSync.waitMs 54 10 = 0 ∧
      (10 - jsMod 54 10) * 1000 = 6000 ∧
      ¬(jsMod 54 10 ≤ 2) ∧
      (LoopSync.scheduleNextLoop 54 10 ⟨9.97, true, none, false⟩).paused = false ∧
      (LoopSync.scheduleNextLoop 54 10 ⟨9.97, true, none, false⟩).pendingTimerMs = none := by
  have hm : jsMod 54 10 = 4 := by norm_num [jsMod, jsTrunc]
  refine ⟨?_, by rw [hm]; norm_num, by rw [hm]; norm_num, ?_, ?_⟩
  · norm_num [LoopSync.waitMs, hm]
  · norm_num [LoopSync.scheduleNextLoop, LoopSync.waitMs, hm]
  · norm_num [LoopSync.scheduleNextLoop, LoopSync.waitMs, hm]

/-- C7 amended: on `ended`, `scheduleNextLoop` repositions to the start and
waits `(duration - elapsed) * 1000` ms when the next boundary is nearer
than the last one (`duration < 2·elapsed`), but zero whenever the last
boundary is at least as near (`2·elapsed ≤ duration`) — not merely "within
one tick".  It resumes immediately, with no timer scheduled, when the wait
is below 16 ms (one rendering frame), and otherwise schedules a resumption
timer for the computed wait. -/
theorem scheduleNextLoop_boundary_wait
    (now dur : ℚ) (st : LoopSync.LoopState) (hs : st.stopped = false) :
    (LoopSync.scheduleNextLoop now dur st).currentTime = 0 ∧
      (2 * jsMod now dur ≤ dur → LoopSync.waitMs now dur = 0) ∧
      (dur < 2 * jsMod now dur →
        LoopSync.waitMs now dur = (dur - jsMod now dur) * 1000) ∧
      (LoopSync.waitMs now dur < 16 →
        (LoopSync.scheduleNextLoop now dur st).paused = false ∧
        (LoopSync.scheduleNextLoop now dur st).pendingTimerMs = st.pendingTimerMs) ∧
      (16 ≤ LoopSync.waitMs now dur →
        (LoopSync.scheduleNextLoop now dur st).pendingTimerMs = some (LoopSync.waitMs now dur) ∧
        (LoopSync.scheduleNextLoop now dur st).paused = st.paused) := by
  unfold LoopSync.scheduleNextLoop LoopSync.waitMs
  rw [hs]
  simp only [Bool.false_eq_true, if_false]
  refine ⟨?_, ?_, ?_, ?_, ?_⟩
  · split_ifs <;> rfl
  · intro h
    rw [if_pos (by linarith : jsMod now dur ≤ dur - jsMod now dur)]
  · intro h
    rw [if_neg (by push_neg; linarith : ¬jsMod now dur ≤ dur - jsMod now dur)]
  · intro h
    rw [if_pos h]
    exact ⟨rfl, rfl⟩
  · intro h
    rw [if_neg (not_lt.mpr h)]
    exact ⟨rfl, rfl⟩

/-- Witness for C7's amended statement: at epoch 59.9 s with a 10-second
video, 0.1 s remain until the boundary, so a 100 ms resumption timer is
scheduled. -/
theorem scheduleNextLoop_boundary_wait_witness :
    ((⟨7, true, none, false⟩ : LoopSync.LoopState).stopped = false) ∧
      (LoopSync.scheduleNextLoop 59.9 10 ⟨7, true, none, false⟩).currentTime = 0 ∧
      (16 ≤ LoopSync.waitMs 59.9 10 →
        (LoopSync.scheduleNextLoop 59.9 10 ⟨7, true, none, false⟩).pendingTimerMs =
          some (LoopSync.waitMs 59.9 10) ∧
        (LoopSync.scheduleNextLoop 59.9 10 ⟨7, true, none, false⟩).paused =
          (⟨7, true, none, false⟩ : LoopSync.LoopState).paused) ∧
      LoopSync.waitMs 59.9 10 = 100 := by
  have hs : ((⟨7, true, none, false⟩ : LoopSync.LoopState)).stopped = false := rfl
  have h := scheduleNextLoop_boundary_wait 59.9 10 ⟨7, true, none, false⟩ hs
  have hm : jsMod 59.9 10 = 9.9 := by norm_num [jsMod, jsTrunc]
  refine ⟨hs, h.1, h.2.2.2.2, ?_⟩
  simp only [LoopSync.waitMs]
  rw [hm]
  norm_num

/-! ## Claim C8 -/

/-- C8: `cleanup` is total (no error from any state), idempotent, leaves no
timer (handle cleared, and — under the handle/interval invariant — zero
live intervals), detaches the visibility subscription, resets the playback
rate to nominal, and touches nothing else (position and pause state are
preserved); a second call changes nothing beyond the first. -/
theorem cleanup_idempotent_and_resets (c : Sync.Controller) :
    Sync.cleanup (Sync.cleanup c) = Sync.cleanup c ∧
      (Sync.cleanup c).timerActive = false ∧
      (Sync.cleanup c).visListener = false ∧
      (Sync.cleanup c).video.playbackRate = 1 ∧
      (Sync.cleanup c).video.currentTime = c.video.currentTime ∧
      (Sync.cleanup c).video.paused = c.video.paused ∧
      (Sync.timerInv c → (Sync.cleanup c).liveIntervals = 0) := by
  obtain ⟨⟨ct, d, rate, p⟩, ta, li, vl⟩ := c
  unfold Sync.cleanup Sync.stopTimer Sync.timerInv
  by_cases hrate : rate = 1 <;> cases ta <;> simp_all

/-- Witness for C8 at a controller whose timer is live and whose rate was
altered: cleanup clears everything and a second cleanup changes nothing. -/
theorem cleanup_idempotent_and_resets_witness :
    Sync.cleanup (Sync.cleanup ⟨⟨2, some 10, 1.03, false⟩, true, 1, true⟩) =
        Sync.cleanup ⟨⟨2, some 10, 1.03, false⟩, true, 1, true⟩ ∧
      (Sync.cleanup ⟨⟨2, some 10, 1.03, false⟩, true, 1, true⟩).timerActive = false ∧
      (Sync.cleanup ⟨⟨2, some 10, 1.03, false⟩, true, 1, true⟩).video.playbackRate = 1 ∧
      (Sync.cleanup ⟨⟨2, some 10, 1.03, false⟩, true, 1, true⟩).liveIntervals = 0 := by
  have h := cleanup_idempotent_and_resets ⟨⟨2, some 10, 1.03, false⟩, true, 1, true⟩
  exact ⟨h.1, h.2.1, h.2.2.2.1, h.2.2.2.2.2.2 rfl⟩

/-! ## Claim C9 -/

theorem timerInv_startTimer {c : Sync.Controller} (h : Sync.timerInv c) :
    Sync.timerInv (Sync.startTimer c) := by
  unfold Sync.timerInv Sync.startTimer at *
  cases hta : c.timerActive <;> simp_all

theorem timerInv_stopTimer {c : Sync.Controller} (h : Sync.timerInv c) :
    Sync.timerInv (Sync.stopTimer c) := by
  unfold Sync.timerInv Sync.stopTimer at *
  cases hta : c.timerActive <;> simp_all

theorem timerInv_step (now dur ignoreT seekT : ℚ) (c : Sync.Controller)
    (e : Sync.TimerEv) (h : Sync.timerInv c) :
    Sync.timerInv (Sync.step now dur ignoreT seekT c e) := by
  cases e with
  | start => exact timerInv_startTimer h
  | stop => exact timerInv_stopTimer h
  | hide =>
    unfold Sync.step Sync.onVisibilityChange
    simp only [if_pos]
    exact timerInv_stopTimer h
  | visible =>
    unfold Sync.step Sync.onVisibilityChange
    simp only [Bool.true_eq_false, if_false]
    apply timerInv_startTimer
    unfold Sync.timerInv at *
    exact h
  | fire =>
    unfold Sync.step Sync.tick Sync.timerInv at *
    split_ifs <;> simp_all

theorem timerInv_run (now dur ignoreT seekT : ℚ) (c : Sync.Controller)
    (evs : List Sync.TimerEv) (h : Sync.timerInv c) :
    Sync.timerInv (Sync.run now dur ignoreT seekT c evs) := by
  induction evs generalizing c with
  | nil => exact h
  | cons e evs ih =>
    exact ih _ (timerInv_step now dur ignoreT seekT c e h)

/-- C9: the controller owns at most one periodic correction interval:
`startTimer` is a no-op when the handle is already set, and along any
interleaving of `startTimer` / `stopTimer` calls, visibility transitions
and interval firings, a controller satisfying the handle/interval invariant
keeps satisfying it — so the number of live correction intervals never
exceeds one. -/
theorem single_timer_ownership :
    (∀ c : Sync.Controller, c.timerActive = true → Sync.startTimer c = c) ∧
      ∀ (now dur ignoreT seekT : ℚ) (c : Sync.Controller) (evs : List Sync.TimerEv),
        Sync.timerInv c →
          Sync.timerInv (Sync.run now dur ignoreT seekT c evs) ∧
          (Sync.run now dur ignoreT seekT c evs).liveIntervals ≤ 1 := by
  constructor
  · intro c h
    unfold Sync.startTimer
    rw [h]
    simp
  · intro now dur ignoreT seekT c evs h
    have hrun := timerInv_run now dur ignoreT seekT c evs h
    refine ⟨hrun, ?_⟩
    unfold Sync.timerInv at hrun
    rw [hrun]
    split_ifs <;> norm_num

/-- Witness for C9: a freshly attached controller (timer just started, one
live interval) put through a hide / start / visible / double-start / fire
sequence still owns at most one live interval, and `startTimer` on it is a
no-op. -/
theorem single_timer_ownership_witness :
    Sync.startTimer ⟨⟨0, some 10, 1, false⟩, true, 1, true⟩ =
        ⟨⟨0, some 10, 1, false⟩, true, 1, true⟩ ∧
      (Sync.run 100 10 Sync.DRIFT_IGNORE Sync.DRIFT_SEEK
          ⟨⟨0, some 10, 1, false⟩, true, 1, true⟩
          [.hide, .start, .visible, .start, .start, .fire]).liveIntervals ≤ 1 :=
  ⟨single_timer_ownership.1 ⟨⟨0, some 10, 1, false⟩, true, 1, true⟩ rfl,
    (single_timer_ownership.2 100 10 Sync.DRIFT_IGNORE Sync.DRIFT_SEEK
      ⟨⟨0, some 10, 1, false⟩, true, 1, true⟩
      [.hide, .start, .visible, .start, .start, .fire] rfl).2⟩

/-! ## Claim C10 -/

theorem charListLe_total (as : List Char) :
    ∀ bs, charListLe as bs = true ∨ charListLe bs as = true := by
  induction as with
  | nil => intro bs; left; rfl
  | cons a as ih =>
    intro bs
    cases bs with
    | nil => right; rfl
    | cons b bs =>
      unfold charListLe
      rcases lt_trichotomy a b with h | h | h
      · left; rw [if_pos h]
      · subst h
        simp only [if_neg (lt_irrefl a)]
        exact ih bs
      · right; rw [if_pos h]

theorem charListLe_elim {a b : Char} {as bs : List Char}
    (h : charListLe (a :: as) (b :: bs) = true) :
    a < b ∨ (a = b ∧ charListLe as bs = true) := by
  unfold charListLe at h
  by_cases hab : a < b
  · exact Or.inl hab
  · by_cases hba : b < a
    · rw [if_neg hab, if_pos hba] at h
      exact absurd h (by simp)
    · rw [if_neg hab, if_neg hba] at h
      exact Or.inr ⟨le_antisymm (not_lt.mp hba) (not_lt.mp hab), h⟩

theorem charListLe_trans (as : List Char) :
    ∀ bs cs, charListLe as bs = true → charListLe bs cs = true →
      charListLe as cs = true := by
  induction as with
  | nil => intro bs cs _ _; rfl
  | cons a as ih =>
    intro bs cs h1 h2
    cases bs with
    | nil => exact absurd h1 (by simp [charListLe])
    | cons b bs =>
      cases cs with
      | nil => exact absurd h2 (by simp [charListLe])
      | cons c cs =>
        rcases charListLe_elim h1 with hab | ⟨hab, h1'⟩ <;>
          rcases charListLe_elim h2 with hbc | ⟨hbc, h2'⟩
        · unfold charListLe; rw [if_pos (hab.trans hbc)]
        · subst hbc; unfold charListLe; rw [if_pos hab]
        · subst hab; unfold charListLe; rw [if_pos hbc]
        · subst hab; subst hbc
          unfold charListLe
          simp only [if_neg (lt_irrefl a)]
          exact ih bs cs h1' h2'

instance : IsTotal String strLe :=
  ⟨fun a b => charListLe_total a.data b.data⟩

instance : IsTrans String strLe :=
  ⟨fun a b c h1 h2 => charListLe_trans a.data b.data c.data h1 h2⟩

theorem testMp4_append (dir name : String) (h : Discover.testMp4 name = true) :
    Discover.testMp4 (dir ++ name) = true := by
  unfold Discover.testMp4 at *
  rw [decide_eq_true_eq] at *
  rw [String.data_append, List.map_append]
  exact h.trans (List.suffix_append _ _)

/-- C10: for every directory path and every observed server response,
`discoverVideos` (a total function: every failure lands in the `catch` and
yields `[]`) returns a list in which every entry passes the `.mp4`
case-insensitive suffix test and which is sorted ascending in lexicographic
(code-unit) order; on a network or parse failure the result is `[]`. -/
theorem discoverVideos_sorted_mp4_entries
    (dir : String) (resp : Discover.ServerResponse) :
    (∀ s ∈ Discover.discoverVideos dir resp, Discover.testMp4 s = true) ∧
      List.Sorted strLe (Discover.discoverVideos dir resp) ∧
      Discover.discoverVideos dir .failure = [] := by
  refine ⟨?_, ?_, rfl⟩
  · intro s hs
    cases resp with
    | failure => exact absurd hs (by simp [Discover.discoverVideos])
    | json entries =>
      unfold Discover.discoverVideos Discover.sortJS at hs
      rw [List.mem_insertionSort] at hs
      rcases List.mem_map.mp hs with ⟨e, he, rfl⟩
      have hf := (List.mem_filter.mp he).2
      rw [Bool.and_eq_true] at hf
      exact testMp4_append dir e.name hf.2
    | html hrefs =>
      unfold Discover.discoverVideos Discover.sortJS at hs
      rw [List.mem_insertionSort] at hs
      rcases List.mem_map.mp hs with ⟨h, hh, rfl⟩
      have hf := (List.mem_filter.mp hh).2
      unfold Discover.hrefMatch at hf
      rw [Bool.and_eq_true, Bool.and_eq_true] at hf
      rcases hf with ⟨⟨_, _⟩, hmp4⟩
      by_cases hsl : Discover.startsWithSlash h = true
      · rw [if_pos hsl]
        exact hmp4
      · rw [if_neg hsl]
        exact testMp4_append dir h hmp4
  · cases resp with
    | failure => exact List.sorted_nil
    | json entries => exact List.sorted_insertionSort strLe _
    | html hrefs => exact List.sorted_insertionSort strLe _

/-- Witness for C10 on a concrete HTML directory listing: the discovered
list is `["/videos/a.mp4", "/videos/b.MP4"]`; its member `/videos/b.MP4`
passes the case-insensitive `.mp4` test, and the whole result is sorted. -/
theorem discoverVideos_sorted_mp4_entries_witness :
    Discover.testMp4 "/videos/b.MP4" = true ∧
      List.Sorted strLe
        (Discover.discoverVideos "/videos/" (.html ["b.MP4", "a.mp4", "c.txt"])) ∧
      Discover.discoverVideos "/videos/" (.html ["b.MP4", "a.mp4", "c.txt"]) =
        ["/videos/a.mp4", "/videos/b.MP4"] :=
  ⟨(discoverVideos_sorted_mp4_entries "/videos/" (.html ["b.MP4", "a.mp4", "c.txt"])).1
      "/videos/b.MP4" (by decide),
    (discoverVideos_sorted_mp4_entries "/videos/" (.html ["b.MP4", "a.mp4", "c.txt"])).2.1,
    by decide⟩
